import Mathlib

/-!
Verification of the 3D mesh / model subsystem and the configuration
round-trip of the `ggez` fork (files `src/graphics/mesh3d.rs` and
`src/conf.rs`).

Shallow embedding conventions:
* `f32` values are modelled as exact rationals (`ℚ`); the sentinel
  constants `f32::MAX` / `f32::MIN` used by the bounding-box routines are
  modelled by the rational value of the largest finite `f32`,
  `(2^24 - 1) * 2^104`, and its negation.
* Vectors are tuples of rationals, machine indices (`u32`, `usize`) are
  `Nat` with explicit range checks where the code performs a conversion.
* Fallible Rust code returning `Result` is modelled with `Except`; a Rust
  panic (out-of-bounds slice index) is modelled by `Option.none` or a
  dedicated `panicked` constructor.
* GPU buffers, `wgpu` handles and the drawing context carry no logical
  content for the verified properties and are omitted from the mesh record.
-/

/-- Rational value of the largest finite `f32` (`f32::MAX`), used by
`Mesh3d::to_aabb` as the initial minimum sentinel. -/
def f32Max : ℚ := (2 ^ 24 - 1) * 2 ^ 104

/-- Rational value of `f32::MIN = -f32::MAX`, the initial maximum sentinel. -/
def f32Min : ℚ := -f32Max

/-- A 3-component vector of (exact) floats, modelling `glam::Vec3` /
`mint::Vector3<f32>`. -/
abbrev V3 : Type := ℚ × ℚ × ℚ

/-- Componentwise minimum, modelling `Vec3::min`. -/
def vmin (a b : V3) : V3 := (min a.1 b.1, min a.2.1 b.2.1, min a.2.2 b.2.2)

/-- Componentwise maximum, modelling `Vec3::max`. -/
def vmax (a b : V3) : V3 := (max a.1 b.1, max a.2.1 b.2.1, max a.2.2 b.2.2)

/-- Componentwise `≤` on 3-vectors. -/
def vle (a b : V3) : Prop := a.1 ≤ b.1 ∧ a.2.1 ≤ b.2.1 ∧ a.2.2 ≤ b.2.2

instance (a b : V3) : Decidable (vle a b) := by unfold vle; infer_instance

/-- The 3d vertex format (`Vertex3d` in `mesh3d.rs`): position, texture
uv, and rgba color. -/
structure Vertex3d where
  pos : V3
  tex_coord : ℚ × ℚ
  color : ℚ × ℚ × ℚ × ℚ
  deriving DecidableEq, Repr

/-- Axis-aligned bounding box (`Aabb` in `mesh3d.rs`): a center and
half-extents. -/
structure Aabb where
  center : V3
  half_extents : V3
  deriving DecidableEq, Repr

/-- `Aabb::from_min_max`: center is the midpoint, half-extents half the
diagonal. -/
def Aabb.from_min_max (minimum maximum : V3) : Aabb :=
  { center := (2⁻¹ * (maximum.1 + minimum.1), 2⁻¹ * (maximum.2.1 + minimum.2.1),
               2⁻¹ * (maximum.2.2 + minimum.2.2)),
    half_extents := (2⁻¹ * (maximum.1 - minimum.1), 2⁻¹ * (maximum.2.1 - minimum.2.1),
                     2⁻¹ * (maximum.2.2 - minimum.2.2)) }

/-- An interior image resource, as far as the verified properties need it:
either `Image::from_color` (a solid 1×1 color) or `Image::from_pixels`
applied to the rgba8 pixel bytes produced by the image decoder
(`DynamicImage::default().into_rgba8()` yields the empty pixel list). -/
inductive Image where
  | fromColor (c : ℚ × ℚ × ℚ × ℚ)
  | fromPixels (pixels : List Nat)
  deriving DecidableEq, Repr

/-- A 3d mesh (`Mesh3d` in `mesh3d.rs`): CPU-side vertex and index arrays
and the optional texture.  The lazily created GPU handles
(`vert_buffer`, `ind_buffer`, `bind_group`) carry no logical content for
the verified properties and are omitted. -/
structure Mesh3d where
  vertices : List Vertex3d
  indices : List Nat
  texture : Option Image
  deriving DecidableEq, Repr

/-- The min/max accumulation loop of `Mesh3d::to_aabb`:
`minimum = minimum.min(p.pos)` folded over the vertices. -/
def minFold (init : V3) (l : List Vertex3d) : V3 :=
  l.foldl (fun acc v => vmin acc v.pos) init

/-- The max accumulation loop of `Mesh3d::to_aabb`. -/
def maxFold (init : V3) (l : List Vertex3d) : V3 :=
  l.foldl (fun acc v => vmax acc v.pos) init

/-- `Mesh3d::to_aabb`: fold componentwise min/max over all vertices
starting from the `Vec3::MAX` / `Vec3::MIN` sentinels; return `none`
unless every minimum component moved off `f32::MAX` and every maximum
component moved off `f32::MIN`. -/
def Mesh3d.to_aabb (m : Mesh3d) : Option Aabb :=
  let minimum := minFold (f32Max, f32Max, f32Max) m.vertices
  let maximum := maxFold (f32Min, f32Min, f32Min) m.vertices
  if minimum.1 ≠ f32Max ∧ minimum.2.1 ≠ f32Max ∧ minimum.2.2 ≠ f32Max ∧
     maximum.1 ≠ f32Min ∧ maximum.2.1 ≠ f32Min ∧ maximum.2.2 ≠ f32Min then
    some (Aabb.from_min_max minimum maximum)
  else
    none

/-- A quaternion (`mint::Quaternion<f32>` / `glam::Quat`), by components. -/
structure Quat where
  x : ℚ
  y : ℚ
  z : ℚ
  w : ℚ
  deriving DecidableEq, Repr

/-- `Transform3d` (`mesh3d.rs`): position, rotation, scale. -/
structure Transform3d where
  position : V3
  rotation : Quat
  scale : V3
  deriving DecidableEq, Repr

/-- `Transform3d::default()`: origin, identity rotation, unit scale. -/
def Transform3d.default : Transform3d :=
  { position := (0, 0, 0), rotation := ⟨0, 0, 0, 1⟩, scale := (1, 1, 1) }

/-- An rgba color (`graphics::Color`), components normalized 0–1. -/
abbrev Color : Type := ℚ × ℚ × ℚ × ℚ

/-- The draw parameter record consumed by `Instance3d::from_param`.
Modelled from the spec: `DrawParam3d` is defined outside the provided
sources; only the fields `from_param` reads are carried — the transform,
the optional explicit pivot point, and the color. -/
structure DrawParam3d where
  transform : Transform3d
  pivot : Option V3
  color : Color
  deriving DecidableEq, Repr

/-- A 4-component column vector (`glam::Vec4`). -/
structure Vec4Q where
  x : ℚ
  y : ℚ
  z : ℚ
  w : ℚ
  deriving DecidableEq, Repr

/-- A column-major 4×4 matrix (`glam::Mat4`): four column vectors. -/
structure Mat4Q where
  xAxis : Vec4Q
  yAxis : Vec4Q
  zAxis : Vec4Q
  wAxis : Vec4Q
  deriving DecidableEq, Repr

/-- `Mat4::mul_vec4`: linear combination of the columns. -/
def Mat4Q.mulVec4 (m : Mat4Q) (v : Vec4Q) : Vec4Q :=
  { x := m.xAxis.x * v.x + m.yAxis.x * v.y + m.zAxis.x * v.z + m.wAxis.x * v.w,
    y := m.xAxis.y * v.x + m.yAxis.y * v.y + m.zAxis.y * v.z + m.wAxis.y * v.w,
    z := m.xAxis.z * v.x + m.yAxis.z * v.y + m.zAxis.z * v.z + m.wAxis.z * v.w,
    w := m.xAxis.w * v.x + m.yAxis.w * v.y + m.zAxis.w * v.z + m.wAxis.w * v.w }

/-- `Mat4` multiplication: each column of the right factor is mapped
through the left factor. -/
def Mat4Q.mul (a b : Mat4Q) : Mat4Q :=
  { xAxis := a.mulVec4 b.xAxis, yAxis := a.mulVec4 b.yAxis,
    zAxis := a.mulVec4 b.zAxis, wAxis := a.mulVec4 b.wAxis }

/-- `Mat4::from_translation`: identity with the translation in the fourth
column. -/
def Mat4Q.fromTranslation (t : V3) : Mat4Q :=
  { xAxis := ⟨1, 0, 0, 0⟩, yAxis := ⟨0, 1, 0, 0⟩,
    zAxis := ⟨0, 0, 1, 0⟩, wAxis := ⟨t.1, t.2.1, t.2.2, 1⟩ }

/-- `Mat4::from_scale`: diagonal scale matrix. -/
def Mat4Q.fromScale (s : V3) : Mat4Q :=
  { xAxis := ⟨s.1, 0, 0, 0⟩, yAxis := ⟨0, s.2.1, 0, 0⟩,
    zAxis := ⟨0, 0, s.2.2, 0⟩, wAxis := ⟨0, 0, 0, 1⟩ }

/-- `Mat4::from_quat`: the standard quaternion-to-rotation-matrix formula
used by `glam`. -/
def Mat4Q.fromQuat (q : Quat) : Mat4Q :=
  let x2 := q.x + q.x
  let y2 := q.y + q.y
  let z2 := q.z + q.z
  let xx := q.x * x2
  let xy := q.x * y2
  let xz := q.x * z2
  let yy := q.y * y2
  let yz := q.y * z2
  let zz := q.z * z2
  let wx := q.w * x2
  let wy := q.w * y2
  let wz := q.w * z2
  { xAxis := ⟨1 - (yy + zz), xy + wz, xz - wy, 0⟩,
    yAxis := ⟨xy - wz, 1 - (xx + zz), yz + wx, 0⟩,
    zAxis := ⟨xz + wy, yz - wx, 1 - (xx + yy), 0⟩,
    wAxis := ⟨0, 0, 0, 1⟩ }

/-- Componentwise addition of 3-vectors (`Vec3` addition). -/
def vadd (a b : V3) : V3 := (a.1 + b.1, a.2.1 + b.2.1, a.2.2 + b.2.2)

/-- Componentwise negation of a 3-vector. -/
def vneg (a : V3) : V3 := (-a.1, -a.2.1, -a.2.2)

/-- The per-instance GPU record (`Instance3d`): a placement matrix and a
color. -/
structure Instance3d where
  transform : Mat4Q
  color : Color
  deriving DecidableEq, Repr

/-- `Instance3d::from_param`: choose the pivot (explicit pivot plus the
caller-supplied center offset, else the transform's position plus the
offset), then compose, left to right,
`T(pivot) * S(scale) * R(rotation) * T(-pivot) * T(position)`. -/
def Instance3d.from_param (param : DrawParam3d) (center : V3) : Instance3d :=
  let offset := center
  let pivot := match param.pivot with
    | some piv => vadd piv offset
    | none => vadd param.transform.position offset
  let transform :=
    ((((Mat4Q.fromTranslation pivot).mul
        (Mat4Q.fromScale param.transform.scale)).mul
        (Mat4Q.fromQuat param.transform.rotation)).mul
        (Mat4Q.fromTranslation (vneg pivot))).mul
        (Mat4Q.fromTranslation param.transform.position)
  { transform := transform, color := param.color }

/-- The polygon record of the raw obj format (`obj::raw::object::Polygon`):
position-only, position+texture, position+normal, or all three. -/
inductive Polygon where
  | P (v : List Nat)
  | PT (v : List (Nat × Nat))
  | PN (v : List (Nat × Nat))
  | PTN (v : List (Nat × Nat × Nat))
  deriving DecidableEq, Repr

/-- The obj load-error kinds the importer produces. -/
inductive LoadErrorKind where
  | IndexOutOfRange
  | UntriangulatedModel
  deriving DecidableEq, Repr

/-- An obj load error (`obj::LoadError`): a kind and a message. -/
structure LoadError where
  kind : LoadErrorKind
  message : String
  deriving DecidableEq, Repr

/-- The number of face vertices of a polygon (`vec.len()` in the match
guards of `process`). -/
def Polygon.count : Polygon → Nat
  | .P v => v.length
  | .PT v => v.length
  | .PN v => v.length
  | .PTN v => v.length

/-- The position indices referenced by a polygon, in face order (the `pi`
values fed to the `map` closure of `process`). -/
def Polygon.posIndices : Polygon → List Nat
  | .P v => v
  | .PT v => v.map Prod.fst
  | .PN v => v.map Prod.fst
  | .PTN v => v.map Prod.fst

/-- `I::from_usize` for `I = u32` (the index type `Model::from_obj`
instantiates the importer at): succeeds exactly when the index fits in 32
bits.  On failure `process` reports `IndexOutOfRange`. -/
def mapIndex (pi : Nat) : Except LoadError Nat :=
  if pi < 2 ^ 32 then .ok pi
  else .error ⟨.IndexOutOfRange, "Unable to convert the index from usize"⟩

/-- Convert every position index of one polygon, stopping at the first
failure (the `map(pi)?` calls of `process`). -/
def convertPoly : List Nat → Except LoadError (List Nat)
  | [] => .ok []
  | pi :: rest =>
    match mapIndex pi with
    | .error e => .error e
    | .ok val =>
      match convertPoly rest with
      | .error e => .error e
      | .ok more => .ok (val :: more)

/-- The polygon loop of `process`: a triangle's indices are converted and
appended; any polygon whose vertex count is not 3 aborts with an
`UntriangulatedModel` error. -/
def processPolygons : List Polygon → Except LoadError (List Nat)
  | [] => .ok []
  | p :: rest =>
    if p.count = 3 then
      match convertPoly p.posIndices with
      | .error e => .error e
      | .ok is =>
        match processPolygons rest with
        | .error e => .error e
        | .ok more => .ok (is ++ more)
    else .error ⟨.UntriangulatedModel, "Meshes must be triangulated"⟩

/-- The vertex list built by `process`: when the position-record count
equals the texture-coordinate-record count, records are zipped and each
vertex takes the first two components of its texture-coordinate record;
otherwise every vertex gets uv (0,0).  Color is always opaque white. -/
def objVerts (vertices : List (ℚ × ℚ × ℚ × ℚ)) (tex_coords : List (ℚ × ℚ × ℚ)) :
    List Vertex3d :=
  if vertices.length = tex_coords.length then
    (vertices.zip tex_coords).map fun v =>
      { pos := (v.1.1, v.1.2.1, v.1.2.2.1),
        tex_coord := (v.2.1, v.2.2.1),
        color := (1, 1, 1, 1) }
  else
    vertices.map fun v =>
      { pos := (v.1, v.2.1, v.2.2.1),
        tex_coord := (0, 0),
        color := (1, 1, 1, 1) }

/-- `obj::FromRawVertex::process` for `Vertex3d` with `u32` indices: build
the vertex list from the position and texture-coordinate records, then
run the polygon loop; normals are ignored. -/
def objProcess (vertices : List (ℚ × ℚ × ℚ × ℚ)) (_normals : List (ℚ × ℚ × ℚ))
    (tex_coords : List (ℚ × ℚ × ℚ)) (polygons : List Polygon) :
    Except LoadError (List Vertex3d × List Nat) :=
  let verts := objVerts vertices tex_coords
  match processPolygons polygons with
  | .error e => .error e
  | .ok inds => .ok (verts, inds)

/-- The engine error type (`GameError`); only the variant carrying a
message is relevant here, so the payloads of the other variants are not
distinguished. -/
inductive GameError where
  | CustomError (msg : String)
  deriving DecidableEq, Repr

/-- `str::strip_prefix`: remove a leading pattern, or fail.  Strings are
modelled as `List Char`. -/
def stripPfx : List Char → List Char → Option (List Char)
  | [], s => some s
  | _ :: _, [] => none
  | p :: ps, c :: cs => if c = p then stripPfx ps cs else none

/-- The `split_once` helper of `mesh3d.rs` (`splitn(2, delimiter)`):
split at the first occurrence of the delimiter; fail when it is absent. -/
def splitOnce (d : Char) : List Char → Option (List Char × List Char)
  | [] => none
  | c :: cs =>
    if c = d then some ([], cs)
    else (splitOnce d cs).map fun p => (c :: p.1, p.2)

/-- `str::strip_suffix`: remove a trailing pattern, or fail. -/
def stripSfx (sfx s : List Char) : Option (List Char) :=
  (stripPfx sfx.reverse s.reverse).map List.reverse

/-- `DataUri` (`mesh3d.rs`): the mime-type segment, the base64 flag, and
the payload. -/
structure DataUri where
  mime_type : List Char
  base64 : Bool
  data : List Char
  deriving DecidableEq, Repr

/-- `DataUri::parse`: strip the `data:` scheme, split at the first comma
into mime segment and payload, and detect an optional `;base64` suffix on
the mime segment. -/
def DataUri.parse (uri : List Char) : Except Unit DataUri :=
  match stripPfx "data:".toList uri with
  | none => .error ()
  | some rest =>
    match splitOnce ',' rest with
    | none => .error ()
    | some (mime_type, data) =>
      match stripSfx ";base64".toList mime_type with
      | some m => .ok ⟨m, true, data⟩
      | none => .ok ⟨mime_type, false, data⟩

/-- One character of the standard base64 alphabet to its 6-bit value.
Models the alphabet of `base64::engine::general_purpose::STANDARD_NO_PAD`
(`=` is not accepted: padding is rejected in no-pad mode). -/
def sextet (c : Char) : Option Nat :=
  if 'A' ≤ c ∧ c ≤ 'Z' then some (c.toNat - 65)
  else if 'a' ≤ c ∧ c ≤ 'z' then some (c.toNat - 97 + 26)
  else if '0' ≤ c ∧ c ≤ '9' then some (c.toNat - 48 + 52)
  else if c = '+' then some 62
  else if c = '/' then some 63
  else none

/-- Reassemble bytes from a list of 6-bit values: full groups of four
sextets give three bytes; a trailing group of two or three sextets gives
one or two bytes and its unused low bits must be zero; a trailing group of
one sextet is invalid.  Models the no-padding decoding of the `base64`
crate with `decode_allow_trailing_bits = false`. -/
def b64Chunks : List Nat → Option (List Nat)
  | [] => some []
  | [_] => none
  | [a, b] => if b % 16 = 0 then some [a * 4 + b / 16] else none
  | [a, b, c] =>
    if c % 4 = 0 then some [a * 4 + b / 16, b % 16 * 16 + c / 4] else none
  | a :: b :: c :: d :: rest =>
    (b64Chunks rest).map fun more =>
      (a * 4 + b / 16) :: (b % 16 * 16 + c / 4) :: (c % 4 * 64 + d) :: more

/-- `STANDARD_NO_PAD.decode`: map every character to its sextet (failing
on any character outside the alphabet) and reassemble bytes. -/
def base64DecodeNoPad (s : List Char) : Option (List Nat) := do
  let vs ← s.mapM sextet
  b64Chunks vs

/-- UTF-8 encoding of one character (`str::as_bytes`, per scalar value). -/
def utf8Char (c : Char) : List Nat :=
  let n := c.toNat
  if n < 128 then [n]
  else if n < 2048 then [192 + n / 64, 128 + n % 64]
  else if n < 65536 then [224 + n / 4096, 128 + n / 64 % 64, 128 + n % 64]
  else [240 + n / 262144, 128 + n / 4096 % 64, 128 + n / 64 % 64, 128 + n % 64]

/-- UTF-8 byte sequence of a string (`str::as_bytes`). -/
def utf8Encode (s : List Char) : List Nat := (s.map utf8Char).flatten

/-- `DataUri::decode`: base64-decode the payload when the uri was marked
base64 (any failure becomes the "Failed to decode base64" error), else
return the payload's raw UTF-8 bytes. -/
def DataUri.decode (self : DataUri) : Except GameError (List Nat) :=
  if self.base64 then
    match base64DecodeNoPad self.data with
    | some vec => .ok vec
    | none => .error (.CustomError "Failed to decode base64")
  else
    .ok (utf8Encode self.data)

/-- `Vertex3d::new`: an absent color defaults to `(1, 1, 1, 0)` — white
with zero alpha. -/
def Vertex3d.new (position : V3) (uv : ℚ × ℚ) (color : Option Color) : Vertex3d :=
  { pos := position, tex_coord := uv, color := color.getD (1, 1, 1, 0) }

/-- The source of a primitive's base-color texture in `Model::from_gltf`:
an embedded buffer view (already sliced to its byte range) or a uri.  The
mime type only feeds the image-format guess, which is part of the
abstracted image decoder. -/
inductive TexSource where
  | view (bytes : List Nat) (mime_type : String)
  | uri (u : List Char) (mime_type : Option String)
  deriving DecidableEq, Repr

/-- One gltf primitive as `Model::from_gltf` consumes it: the accessor
reads (positions, texture coordinates, indices — each absent when the
accessor is missing) and the optional base-color texture source. -/
structure GltfPrimitive where
  positions : Option (List V3)
  texCoords : Option (List (ℚ × ℚ))
  indices : Option (List Nat)
  texture : Option TexSource
  deriving Repr

/-- Outcome of running a piece of Rust code that can return normally,
return an error, or panic (an out-of-bounds index). -/
inductive RunResult (α : Type) where
  | ok (val : α)
  | error (e : GameError)
  | panicked
  deriving DecidableEq, Repr

/-- Whether a run ended in a returned error (a panic is not a returned
error). -/
def RunResult.isError : RunResult α → Bool
  | .error _ => true
  | _ => false

/-- The texture-resolution step of `Model::from_gltf` for one primitive.
`decodeImg` abstracts `image::load_from_memory_with_format` (including
the mime-based format guess): it returns the decoded rgba8 pixel bytes or
`none` on decode failure; the code recovers a decode failure with
`unwrap_or_default()`, whose rgba8 conversion is the empty pixel list.
A `view` source never fails; a `uri` source propagates data-URI parse
failures and base64 failures as errors of the whole call. -/
def resolveTexture (decodeImg : List Nat → Option (List Nat)) :
    Option TexSource → Except GameError Image
  | none => .ok (Image.fromColor (1, 1, 1, 1))
  | some (.view bytes _) => .ok (Image.fromPixels ((decodeImg bytes).getD []))
  | some (.uri u _) =>
    match DataUri.parse u with
    | .error () => .error (.CustomError "Failed to decode")
    | .ok data_uri =>
      match data_uri.decode with
      | .error e => .error e
      | .ok bytes => .ok (Image.fromPixels ((decodeImg bytes).getD []))

/-- The vertex list read from the position accessor in `Model::from_gltf`:
every vertex is built by `Vertex3d::new` with uv `(0,0)` and the explicit
color `(1,1,1,0)`. -/
def primitiveVertices (ps : List V3) : List Vertex3d :=
  ps.map fun p => Vertex3d.new p (0, 0) (some (1, 1, 1, 0))

/-- The texture-coordinate assignment loop of `Model::from_gltf`:
`vertices[idx].tex_coord = tex_coord; idx += 1` for each read coordinate.
Writing position `idx` when `idx` is out of bounds is a Rust panic,
modelled by `none`. -/
def assignTexCoords : List (ℚ × ℚ) → List Vertex3d → Option (List Vertex3d)
  | [], vs => some vs
  | _ :: _, [] => none
  | t :: ts, v :: vs =>
    (assignTexCoords ts vs).map fun rest => { v with tex_coord := t } :: rest

/-- Processing of one gltf primitive: resolve the texture (propagating its
errors), read positions (absent accessor gives zero vertices), assign
texture coordinates positionally (panicking when they outnumber the
vertices), read indices (absent accessor gives zero indices), and build
the mesh. -/
def processPrimitive (decodeImg : List Nat → Option (List Nat))
    (p : GltfPrimitive) : RunResult Mesh3d :=
  match resolveTexture decodeImg p.texture with
  | .error e => .error e
  | .ok image =>
    let vertices := match p.positions with
      | none => []
      | some ps => primitiveVertices ps
    let afterTex := match p.texCoords with
      | none => some vertices
      | some tcs => assignTexCoords tcs vertices
    match afterTex with
    | none => .panicked
    | some vs => .ok { vertices := vs, indices := p.indices.getD [], texture := some image }

/-- The primitive loop of `Model::from_gltf` over all primitives of the
container, in order; the first error or panic aborts the loop (and with it
the whole model load). -/
def fromGltfPrimitives (decodeImg : List Nat → Option (List Nat)) :
    List GltfPrimitive → RunResult (List Mesh3d)
  | [] => .ok []
  | p :: rest =>
    match processPrimitive decodeImg p with
    | .error e => .error e
    | .panicked => .panicked
    | .ok m =>
      match fromGltfPrimitives decodeImg rest with
      | .error e => .error e
      | .panicked => .panicked
      | .ok ms => .ok (m :: ms)

/-- Possible fullscreen modes (`conf.rs`). -/
inductive FullscreenType where
  | Windowed
  | True
  | Desktop
  deriving DecidableEq, Repr

/-- Window settings changeable at runtime (`WindowMode` in `conf.rs`),
fields in declaration order. -/
structure WindowMode where
  width : ℚ
  height : ℚ
  maximized : Bool
  fullscreen_type : FullscreenType
  borderless : Bool
  min_width : ℚ
  min_height : ℚ
  max_width : ℚ
  max_height : ℚ
  resizable : Bool
  visible : Bool
  resize_on_scale_factor_change : Bool
  deriving DecidableEq, Repr

/-- `WindowMode::default()`. -/
def WindowMode.default : WindowMode :=
  { width := 800, height := 600, maximized := false,
    fullscreen_type := .Windowed, borderless := false,
    min_width := 0, min_height := 0, max_width := 0, max_height := 0,
    resizable := false, visible := true, resize_on_scale_factor_change := false }

/-- The possible multisampling sample counts (`NumSamples` in `conf.rs`):
only 1 and 4. -/
inductive NumSamples where
  | One
  | Four
  deriving DecidableEq, Repr

/-- Window settings fixed at init time (`WindowSetup` in `conf.rs`). -/
structure WindowSetup where
  title : String
  samples : NumSamples
  vsync : Bool
  icon : String
  srgb : Bool
  deriving DecidableEq, Repr

/-- `WindowSetup::default()`. -/
def WindowSetup.default : WindowSetup :=
  { title := "An easy, good game", samples := .One, vsync := true,
    icon := "", srgb := true }

/-- Possible graphics backends (`Backend` in `conf.rs`), serialized with
an adjacent `type` tag. -/
inductive Backend where
  | Primary
  | Secondary
  | Vulkan
  | Metal
  | Dx12
  | Dx11
  | Gl
  | BrowserWebGpu
  deriving DecidableEq, Repr

/-- The configuration record (`Conf` in `conf.rs`). -/
structure Conf where
  window_mode : WindowMode
  window_setup : WindowSetup
  backend : Backend
  deriving DecidableEq, Repr

/-- `Conf::default()`. -/
def Conf.default : Conf :=
  { window_mode := WindowMode.default, window_setup := WindowSetup.default,
    backend := .Primary }

/-- The TOML value tree exchanged between the derived serializer and
deserializer of `Conf`.  The textual rendering and lexing performed by the
`toml` crate is a faithful inverse pair on this tree and is abstracted;
floats stay exact rationals. -/
inductive TomlValue where
  | float (q : ℚ)
  | boolean (b : Bool)
  | str (s : String)
  | table (kvs : List (String × TomlValue))

/-- Serde serialization of a plain-enum variant: its name as a string. -/
def fullscreenTypeStr : FullscreenType → String
  | .Windowed => "Windowed"
  | .True => "True"
  | .Desktop => "Desktop"

/-- Serde serialization of a `NumSamples` variant. -/
def numSamplesStr : NumSamples → String
  | .One => "One"
  | .Four => "Four"

/-- Serde serialization of a `Backend` variant (the tag value). -/
def backendStr : Backend → String
  | .Primary => "Primary"
  | .Secondary => "Secondary"
  | .Vulkan => "Vulkan"
  | .Metal => "Metal"
  | .Dx12 => "Dx12"
  | .Dx11 => "Dx11"
  | .Gl => "Gl"
  | .BrowserWebGpu => "BrowserWebGpu"

/-- Derived serialization of `WindowMode`: a table of all fields in
declaration order. -/
def serializeWindowMode (wm : WindowMode) : TomlValue :=
  .table [("width", .float wm.width), ("height", .float wm.height),
          ("maximized", .boolean wm.maximized),
          ("fullscreen_type", .str (fullscreenTypeStr wm.fullscreen_type)),
          ("borderless", .boolean wm.borderless),
          ("min_width", .float wm.min_width), ("min_height", .float wm.min_height),
          ("max_width", .float wm.max_width), ("max_height", .float wm.max_height),
          ("resizable", .boolean wm.resizable), ("visible", .boolean wm.visible),
          ("resize_on_scale_factor_change", .boolean wm.resize_on_scale_factor_change)]

/-- Derived serialization of `WindowSetup`. -/
def serializeWindowSetup (ws : WindowSetup) : TomlValue :=
  .table [("title", .str ws.title), ("samples", .str (numSamplesStr ws.samples)),
          ("vsync", .boolean ws.vsync), ("icon", .str ws.icon),
          ("srgb", .boolean ws.srgb)]

/-- Derived serialization of `Backend` (internally tagged with `type`). -/
def serializeBackend (b : Backend) : TomlValue :=
  .table [("type", .str (backendStr b))]

/-- `Conf::to_toml_file`: the serialized configuration document (the byte
rendering of this tree is the `toml` crate's). -/
def Conf.to_toml_file (c : Conf) : TomlValue :=
  .table [("window_mode", serializeWindowMode c.window_mode),
          ("window_setup", serializeWindowSetup c.window_setup),
          ("backend", serializeBackend c.backend)]

/-- Key lookup in a TOML table (first match). -/
def tomlGet : List (String × TomlValue) → String → Option TomlValue
  | [], _ => none
  | (k2, v) :: rest, k => if k2 = k then some v else tomlGet rest k

/-- Expect a table. -/
def TomlValue.asTable : TomlValue → Option (List (String × TomlValue))
  | .table kvs => some kvs
  | _ => none

/-- Expect a float. -/
def TomlValue.asFloat : TomlValue → Option ℚ
  | .float q => some q
  | _ => none

/-- Expect a boolean. -/
def TomlValue.asBool : TomlValue → Option Bool
  | .boolean b => some b
  | _ => none

/-- Expect a string. -/
def TomlValue.asStr : TomlValue → Option String
  | .str s => some s
  | _ => none

/-- Deserialize a `FullscreenType` from its variant name; any other string
is a parse error. -/
def parseFullscreenType (s : String) : Option FullscreenType :=
  if s = "Windowed" then some .Windowed
  else if s = "True" then some .True
  else if s = "Desktop" then some .Desktop
  else none

/-- Deserialize a `NumSamples`; strings other than the two variant names
(the "invalid number of samples" case) are parse errors. -/
def parseNumSamples (s : String) : Option NumSamples :=
  if s = "One" then some .One
  else if s = "Four" then some .Four
  else none

/-- Look up a key and expect a float. -/
def getFloatKey (t : List (String × TomlValue)) (k : String) : Option ℚ :=
  (tomlGet t k).bind TomlValue.asFloat

/-- Look up a key and expect a boolean. -/
def getBoolKey (t : List (String × TomlValue)) (k : String) : Option Bool :=
  (tomlGet t k).bind TomlValue.asBool

/-- Look up a key and expect a string. -/
def getStrKey (t : List (String × TomlValue)) (k : String) : Option String :=
  (tomlGet t k).bind TomlValue.asStr

/-- Deserialize a `Backend` from its tag value. -/
def parseBackend (v : TomlValue) : Option Backend :=
  v.asTable.bind fun t =>
  (getStrKey t "type").bind fun tag =>
  if tag = "Primary" then some .Primary
  else if tag = "Secondary" then some .Secondary
  else if tag = "Vulkan" then some .Vulkan
  else if tag = "Metal" then some .Metal
  else if tag = "Dx12" then some .Dx12
  else if tag = "Dx11" then some .Dx11
  else if tag = "Gl" then some .Gl
  else if tag = "BrowserWebGpu" then some .BrowserWebGpu
  else none

/-- Derived deserialization of `WindowMode`: every field must be present
with the right type (no defaulted merge). -/
def parseWindowMode (v : TomlValue) : Option WindowMode :=
  v.asTable.bind fun t =>
  (getFloatKey t "width").bind fun width =>
  (getFloatKey t "height").bind fun height =>
  (getBoolKey t "maximized").bind fun maximized =>
  (getStrKey t "fullscreen_type").bind fun ftStr =>
  (parseFullscreenType ftStr).bind fun ft =>
  (getBoolKey t "borderless").bind fun borderless =>
  (getFloatKey t "min_width").bind fun min_width =>
  (getFloatKey t "min_height").bind fun min_height =>
  (getFloatKey t "max_width").bind fun max_width =>
  (getFloatKey t "max_height").bind fun max_height =>
  (getBoolKey t "resizable").bind fun resizable =>
  (getBoolKey t "visible").bind fun visible =>
  (getBoolKey t "resize_on_scale_factor_change").map fun rsfc =>
  WindowMode.mk width height maximized ft borderless min_width min_height
    max_width max_height resizable visible rsfc

/-- Derived deserialization of `WindowSetup`. -/
def parseWindowSetup (v : TomlValue) : Option WindowSetup :=
  v.asTable.bind fun t =>
  (getStrKey t "title").bind fun title =>
  (getStrKey t "samples").bind fun samplesStr =>
  (parseNumSamples samplesStr).bind fun samples =>
  (getBoolKey t "vsync").bind fun vsync =>
  (getStrKey t "icon").bind fun icon =>
  (getBoolKey t "srgb").map fun srgb =>
  WindowSetup.mk title samples vsync icon srgb

/-- Derived deserialization of `Conf`: all three sections required. -/
def parseConf (v : TomlValue) : Option Conf :=
  v.asTable.bind fun t =>
  (tomlGet t "window_mode").bind fun wmv =>
  (parseWindowMode wmv).bind fun window_mode =>
  (tomlGet t "window_setup").bind fun wsv =>
  (parseWindowSetup wsv).bind fun window_setup =>
  (tomlGet t "backend").bind fun bv =>
  (parseBackend bv).map fun backend =>
  Conf.mk window_mode window_setup backend

/-- `Conf::from_toml_file`: parse the document; a failing parse surfaces
as a configuration error (the message text of the `toml` crate is
abstracted). -/
def Conf.from_toml_file (doc : TomlValue) : Except GameError Conf :=
  match parseConf doc with
  | some c => .ok c
  | none => .error (.CustomError "TOML parse error")

/-! ## Lemmas about the bounding-box fold -/

lemma vle_refl (a : V3) : vle a a := ⟨le_refl _, le_refl _, le_refl _⟩

lemma vle_trans {a b c : V3} (h1 : vle a b) (h2 : vle b c) : vle a c :=
  ⟨h1.1.trans h2.1, h1.2.1.trans h2.2.1, h1.2.2.trans h2.2.2⟩

lemma vmin_le_left (a b : V3) : vle (vmin a b) a :=
  ⟨min_le_left _ _, min_le_left _ _, min_le_left _ _⟩

lemma vmin_le_right (a b : V3) : vle (vmin a b) b :=
  ⟨min_le_right _ _, min_le_right _ _, min_le_right _ _⟩

lemma left_le_vmax (a b : V3) : vle a (vmax a b) :=
  ⟨le_max_left _ _, le_max_left _ _, le_max_left _ _⟩

lemma right_le_vmax (a b : V3) : vle b (vmax a b) :=
  ⟨le_max_right _ _, le_max_right _ _, le_max_right _ _⟩

lemma minFold_le_init (init : V3) (l : List Vertex3d) :
    vle (minFold init l) init := by
  induction l generalizing init with
  | nil => exact vle_refl _
  | cons a t ih =>
    have h := ih (vmin init a.pos)
    exact vle_trans h (vmin_le_left _ _)

lemma init_le_maxFold (init : V3) (l : List Vertex3d) :
    vle init (maxFold init l) := by
  induction l generalizing init with
  | nil => exact vle_refl _
  | cons a t ih =>
    have h := ih (vmax init a.pos)
    exact vle_trans (left_le_vmax _ _) h

lemma minFold_le_mem {v : Vertex3d} {l : List Vertex3d} (init : V3)
    (hv : v ∈ l) : vle (minFold init l) v.pos := by
  induction l generalizing init with
  | nil => cases hv
  | cons a t ih =>
    rcases List.mem_cons.mp hv with rfl | hmem
    · exact vle_trans (minFold_le_init (vmin init v.pos) t) (vmin_le_right _ _)
    · exact ih _ hmem

lemma mem_le_maxFold {v : Vertex3d} {l : List Vertex3d} (init : V3)
    (hv : v ∈ l) : vle v.pos (maxFold init l) := by
  induction l generalizing init with
  | nil => cases hv
  | cons a t ih =>
    rcases List.mem_cons.mp hv with rfl | hmem
    · exact vle_trans (right_le_vmax _ _) (init_le_maxFold (vmax init v.pos) t)
    · exact ih _ hmem

/-- All three position coordinates lie strictly between `f32::MIN` and
`f32::MAX`. -/
def posInRange (v : Vertex3d) : Prop :=
  f32Min < v.pos.1 ∧ v.pos.1 < f32Max ∧
  f32Min < v.pos.2.1 ∧ v.pos.2.1 < f32Max ∧
  f32Min < v.pos.2.2 ∧ v.pos.2.2 < f32Max

instance (v : Vertex3d) : Decidable (posInRange v) := by
  unfold posInRange; infer_instance

/-- C1 (amended).  For every mesh with at least one vertex whose position
coordinates all lie strictly between `f32::MIN` and `f32::MAX`,
`Mesh3d::to_aabb` returns an AABB whose half-extents are all `≥ 0` and
such that `center - half_extents ≤ p ≤ center + half_extents` holds
component-wise for every vertex position `p`.  (The strict-range
hypothesis is forced by the sentinel check of `to_aabb`: a vertex whose
coordinate equals `f32::MAX` can make the query report `none`, see the
counterexample.) -/
theorem to_aabb_some_bounds (m : Mesh3d) (hne : m.vertices ≠ [])
    (hrange : ∀ v ∈ m.vertices, posInRange v) :
    ∃ a, m.to_aabb = some a ∧
      vle (0, 0, 0) a.half_extents ∧
      ∀ v ∈ m.vertices,
        vle (vadd a.center (vneg a.half_extents)) v.pos ∧
        vle v.pos (vadd a.center a.half_extents) := by
  obtain ⟨v0, hv0⟩ := List.exists_mem_of_ne_nil _ hne
  set minimum := minFold (f32Max, f32Max, f32Max) m.vertices with hmin
  set maximum := maxFold (f32Min, f32Min, f32Min) m.vertices with hmax
  have hminle : ∀ v ∈ m.vertices, vle minimum v.pos :=
    fun v hv => minFold_le_mem _ hv
  have hmaxge : ∀ v ∈ m.vertices, vle v.pos maximum :=
    fun v hv => mem_le_maxFold _ hv
  have hr0 := hrange v0 hv0
  have hcond : minimum.1 ≠ f32Max ∧ minimum.2.1 ≠ f32Max ∧ minimum.2.2 ≠ f32Max ∧
      maximum.1 ≠ f32Min ∧ maximum.2.1 ≠ f32Min ∧ maximum.2.2 ≠ f32Min := by
    obtain ⟨hm1, hm2, hm3⟩ := hminle v0 hv0
    obtain ⟨hM1, hM2, hM3⟩ := hmaxge v0 hv0
    obtain ⟨h1, h2, h3, h4, h5, h6⟩ := hr0
    exact ⟨ne_of_lt (lt_of_le_of_lt hm1 h2),
           ne_of_lt (lt_of_le_of_lt hm2 h4),
           ne_of_lt (lt_of_le_of_lt hm3 h6),
           ne_of_gt (lt_of_lt_of_le h1 hM1),
           ne_of_gt (lt_of_lt_of_le h3 hM2),
           ne_of_gt (lt_of_lt_of_le h5 hM3)⟩
  refine ⟨Aabb.from_min_max minimum maximum, ?_, ?_, ?_⟩
  · simp only [Mesh3d.to_aabb, ← hmin, ← hmax]
    exact if_pos hcond
  · obtain ⟨hm1, hm2, hm3⟩ := hminle v0 hv0
    obtain ⟨hM1, hM2, hM3⟩ := hmaxge v0 hv0
    refine ⟨?_, ?_, ?_⟩ <;> simp only [Aabb.from_min_max] <;> linarith
  · intro v hv
    obtain ⟨hm1, hm2, hm3⟩ := hminle v hv
    obtain ⟨hM1, hM2, hM3⟩ := hmaxge v hv
    constructor
    · refine ⟨?_, ?_, ?_⟩ <;>
        simp only [Aabb.from_min_max, vadd, vneg] <;> linarith
    · refine ⟨?_, ?_, ?_⟩ <;>
        simp only [Aabb.from_min_max, vadd, vneg] <;> linarith

/-- C1 counterexample to the claim as stated: a mesh with one vertex whose
`x` coordinate is exactly `f32::MAX` has at least one vertex, yet
`to_aabb` returns `none` (the sentinel check mistakes the coordinate for
the untouched initial minimum). -/
theorem to_aabb_cex :
    Mesh3d.to_aabb
      { vertices := [{ pos := (f32Max, 0, 0), tex_coord := (0, 0),
                       color := (1, 1, 1, 1) }],
        indices := [], texture := none } = none := by
  simp only [Mesh3d.to_aabb, minFold, maxFold, List.foldl, vmin, vmax]
  refine if_neg ?_
  rintro ⟨h1, -⟩
  exact h1 (min_self _)

/-- Witness for `to_aabb_some_bounds` at a concrete one-vertex mesh. -/
theorem to_aabb_some_bounds_witness :
    ∃ a, Mesh3d.to_aabb
      { vertices := [{ pos := (1, 2, 3), tex_coord := (0, 0),
                       color := (1, 1, 1, 1) }],
        indices := [], texture := none } = some a ∧
      vle (0, 0, 0) a.half_extents ∧
      ∀ v ∈ [({ pos := ((1 : ℚ), (2 : ℚ), (3 : ℚ)), tex_coord := (0, 0),
                color := (1, 1, 1, 1) } : Vertex3d)],
        vle (vadd a.center (vneg a.half_extents)) v.pos ∧
        vle v.pos (vadd a.center a.half_extents) :=
  to_aabb_some_bounds _ (by simp)
    (by
      intro v hv
      simp only [List.mem_singleton] at hv
      subst hv
      refine ⟨?_, ?_, ?_, ?_, ?_, ?_⟩ <;> norm_num [f32Max, f32Min])

/-- C7.  When the effective pivot coincides with the transform's position
— the explicit pivot equals the position, or no pivot is given — and the
center offset is zero, the placement matrix computed by
`Instance3d::from_param` has translation column exactly the transform's
position, for every rotation and scale. -/
theorem from_param_translation (param : DrawParam3d) (center : V3)
    (hcenter : center = (0, 0, 0))
    (hpivot : param.pivot = some param.transform.position ∨ param.pivot = none) :
    (Instance3d.from_param param center).transform.wAxis =
      ⟨param.transform.position.1, param.transform.position.2.1,
       param.transform.position.2.2, 1⟩ := by
  obtain ⟨⟨⟨px, py, pz⟩, ⟨qx, qy, qz, qw⟩, ⟨sx, sy, sz⟩⟩, piv, col⟩ := param
  subst hcenter
  rcases hpivot with h | h <;> simp only at h <;> subst h <;>
    (simp only [Instance3d.from_param, Mat4Q.mul, Mat4Q.mulVec4,
       Mat4Q.fromTranslation, Mat4Q.fromScale, Mat4Q.fromQuat, vadd, vneg,
       Vec4Q.mk.injEq]
     refine ⟨?_, ?_, ?_, ?_⟩ <;> ring)

/-- Witness for `from_param_translation`: explicit pivot equal to the
position, non-trivial rotation and scale. -/
theorem from_param_translation_witness :
    (Instance3d.from_param
      { transform := { position := (5, 6, 7), rotation := ⟨1, 2, 3, 4⟩,
                       scale := (2, 3, 4) },
        pivot := some (5, 6, 7), color := (1, 1, 1, 1) }
      (0, 0, 0)).transform.wAxis = ⟨5, 6, 7, 1⟩ :=
  from_param_translation _ _ rfl (Or.inl rfl)

/-! ## Lemmas about the obj importer -/

lemma objVerts_length (vs : List (ℚ × ℚ × ℚ × ℚ)) (ts : List (ℚ × ℚ × ℚ)) :
    (objVerts vs ts).length = vs.length := by
  unfold objVerts
  split
  · rename_i h
    simp [List.length_zip, h]
  · simp

lemma mapIndex_ok {pi val : Nat} (h : mapIndex pi = .ok val) : val = pi := by
  unfold mapIndex at h
  split at h
  · exact (Except.ok.inj h).symm
  · simp at h

lemma convertPoly_ok {l is : List Nat} (h : convertPoly l = .ok is) : is = l := by
  induction l generalizing is with
  | nil =>
    simp only [convertPoly, Except.ok.injEq] at h
    exact h.symm
  | cons pi rest ih =>
    unfold convertPoly at h
    cases hm : mapIndex pi with
    | error e => rw [hm] at h; simp at h
    | ok val =>
      rw [hm] at h
      cases hc : convertPoly rest with
      | error e => rw [hc] at h; simp at h
      | ok more =>
        rw [hc] at h
        simp at h
        subst h
        rw [mapIndex_ok hm, ih hc]

lemma convertPoly_ok_of_lt {l : List Nat} (h : ∀ i ∈ l, i < 2 ^ 32) :
    convertPoly l = .ok l := by
  induction l with
  | nil => rfl
  | cons pi rest ih =>
    simp only [convertPoly, mapIndex, if_pos (h pi (List.mem_cons_self _ _))]
    rw [ih fun i hi => h i (List.mem_cons_of_mem _ hi)]

lemma processPolygons_ok_mem {polys : List Polygon} {inds : List Nat}
    (h : processPolygons polys = .ok inds) :
    ∀ i ∈ inds, ∃ p ∈ polys, i ∈ p.posIndices := by
  induction polys generalizing inds with
  | nil =>
    simp only [processPolygons, Except.ok.injEq] at h
    subst h
    intro i hi
    cases hi
  | cons q rest ih =>
    simp only [processPolygons] at h
    split at h
    · cases hc : convertPoly q.posIndices with
      | error e => rw [hc] at h; simp at h
      | ok is =>
        rw [hc] at h
        cases hr : processPolygons rest with
        | error e => rw [hr] at h; simp at h
        | ok more =>
          rw [hr] at h
          simp only [Except.ok.injEq] at h
          subst h
          intro i hi
          rcases List.mem_append.mp hi with hl | hr2
          · exact ⟨q, List.mem_cons_self _ _, (convertPoly_ok hc) ▸ hl⟩
          · obtain ⟨p, hp, hip⟩ := ih hr i hr2
            exact ⟨p, List.mem_cons_of_mem _ hp, hip⟩
    · simp at h

lemma processPolygons_not_ok {polys : List Polygon}
    (hbad : ∃ p ∈ polys, p.count ≠ 3) :
    ∀ r, processPolygons polys ≠ .ok r := by
  induction polys with
  | nil => obtain ⟨p, hp, -⟩ := hbad; cases hp
  | cons q rest ih =>
    intro r h
    simp only [processPolygons] at h
    split at h
    · rename_i hq3
      obtain ⟨p, hp, hpc⟩ := hbad
      rcases List.mem_cons.mp hp with rfl | hmem
      · exact hpc hq3
      · cases hc : convertPoly q.posIndices with
        | error e => rw [hc] at h; simp at h
        | ok is =>
          rw [hc] at h
          cases hr : processPolygons rest with
          | error e => rw [hr] at h; simp at h
          | ok more => exact ih ⟨p, hmem, hpc⟩ more hr
    · simp at h

lemma processPolygons_untri {polys : List Polygon}
    (hbad : ∃ p ∈ polys, p.count ≠ 3)
    (hlt : ∀ p ∈ polys, ∀ i ∈ p.posIndices, i < 2 ^ 32) :
    processPolygons polys =
      .error ⟨.UntriangulatedModel, "Meshes must be triangulated"⟩ := by
  induction polys with
  | nil => obtain ⟨p, hp, -⟩ := hbad; cases hp
  | cons q rest ih =>
    simp only [processPolygons]
    split
    · rename_i hq3
      obtain ⟨p, hp, hpc⟩ := hbad
      rcases List.mem_cons.mp hp with rfl | hmem
      · exact absurd hq3 hpc
      · rw [convertPoly_ok_of_lt (hlt q (List.mem_cons_self _ _))]
        rw [ih ⟨p, hmem, hpc⟩ fun p hp => hlt p (List.mem_cons_of_mem _ hp)]
    · rfl

lemma objProcess_ok {v : List (ℚ × ℚ × ℚ × ℚ)} {n t0 : List (ℚ × ℚ × ℚ)}
    {p : List Polygon} {r : List Vertex3d × List Nat}
    (h : objProcess v n t0 p = .ok r) :
    r.1 = objVerts v t0 ∧ processPolygons p = .ok r.2 := by
  unfold objProcess at h
  cases hpp : processPolygons p with
  | error e => rw [hpp] at h; simp at h
  | ok inds =>
    rw [hpp] at h
    simp only [Except.ok.injEq] at h
    obtain rfl := h
    exact ⟨rfl, rfl⟩

/-- C2 (amended).  For every input document accepted by the obj importer
in which every face-vertex index refers to an existing position record,
every index in the returned index list is strictly less than the length
of the returned vertex list.  (The importer performs no bounds check of
its own: an accepted document whose face references a position index `≥`
the position-record count yields out-of-range output indices, see the
counterexample.) -/
theorem objProcess_indices_bound (v : List (ℚ × ℚ × ℚ × ℚ))
    (n t0 : List (ℚ × ℚ × ℚ)) (p : List Polygon) (r : List Vertex3d × List Nat)
    (hidx : ∀ q ∈ p, ∀ i ∈ q.posIndices, i < v.length)
    (hok : objProcess v n t0 p = .ok r) :
    ∀ i ∈ r.2, i < r.1.length := by
  obtain ⟨h1, h2⟩ := objProcess_ok hok
  intro i hi
  rw [h1, objVerts_length]
  obtain ⟨q, hq, hiq⟩ := processPolygons_ok_mem h2 i hi
  exact hidx q hq i hiq

/-- C2 counterexample to the claim as stated: a document with one position
record and one triangle face referencing indices 0, 1 and 2 is accepted
(`process` returns `Ok`), yet the output indices 1 and 2 are not smaller
than the vertex-list length 1. -/
theorem objProcess_indices_cex :
    objProcess [(0, 0, 0, 0)] [] [] [.P [0, 1, 2]] =
      .ok ([{ pos := (0, 0, 0), tex_coord := (0, 0), color := (1, 1, 1, 1) }],
           [0, 1, 2]) ∧
    ¬ ∀ i ∈ ([0, 1, 2] : List Nat), i < 1 := by
  constructor
  · rfl
  · intro h
    exact absurd (h 2 (by simp)) (by omega)

/-- Witness for `objProcess_indices_bound`: the spec's example document,
two triangle faces sharing vertices, four position records; index 3 of
the output is in bounds. -/
theorem objProcess_indices_bound_witness :
    (3 : Nat) <
      (objVerts [(0, 0, 0, 0), (1, 0, 0, 0), (0, 1, 0, 0), (1, 1, 0, 0)] [],
       ([0, 1, 2, 1, 2, 3] : List Nat)).1.length :=
  objProcess_indices_bound
    [(0, 0, 0, 0), (1, 0, 0, 0), (0, 1, 0, 0), (1, 1, 0, 0)] [] []
    [.P [0, 1, 2], .P [1, 2, 3]]
    (objVerts [(0, 0, 0, 0), (1, 0, 0, 0), (0, 1, 0, 0), (1, 1, 0, 0)] [],
     [0, 1, 2, 1, 2, 3])
    (by decide) (by rfl) 3 (by decide)

/-- C3.  Any document containing a face with more or fewer than 3
vertices is rejected by `process` — it is never accepted (no silent
dropping) — and when every face index is convertible to `u32` the error
is precisely the untriangulated-model error. -/
theorem objProcess_untriangulated (v : List (ℚ × ℚ × ℚ × ℚ))
    (n t0 : List (ℚ × ℚ × ℚ)) (p : List Polygon)
    (hbad : ∃ q ∈ p, q.count ≠ 3) :
    (∀ r, objProcess v n t0 p ≠ .ok r) ∧
    ((∀ q ∈ p, ∀ i ∈ q.posIndices, i < 2 ^ 32) →
      objProcess v n t0 p =
        .error ⟨.UntriangulatedModel, "Meshes must be triangulated"⟩) := by
  constructor
  · intro r h
    exact processPolygons_not_ok hbad r.2 (objProcess_ok h).2
  · intro hlt
    unfold objProcess
    rw [processPolygons_untri hbad hlt]

/-- Witness for `objProcess_untriangulated`: a document with one quad face
(4 indices) is rejected with the untriangulated error. -/
theorem objProcess_untriangulated_witness :
    (∀ r, objProcess [(0, 0, 0, 0), (1, 0, 0, 0), (1, 1, 0, 0), (0, 1, 0, 0)]
        [] [] [.P [0, 1, 2, 3]] ≠ .ok r) ∧
    ((∀ q ∈ [Polygon.P [0, 1, 2, 3]], ∀ i ∈ q.posIndices, i < 2 ^ 32) →
      objProcess [(0, 0, 0, 0), (1, 0, 0, 0), (1, 1, 0, 0), (0, 1, 0, 0)]
        [] [] [.P [0, 1, 2, 3]] =
        .error ⟨.UntriangulatedModel, "Meshes must be triangulated"⟩) :=
  objProcess_untriangulated _ _ _ _ (by decide)

/-- C4.  For every accepted document: when the position-record count
equals the texture-coordinate-record count, the `i`-th output vertex's uv
is the first two components of the `i`-th texture-coordinate record; when
the counts differ, every output vertex's uv is `(0,0)`; and in both cases
every output vertex's color is opaque white `(1,1,1,1)`. -/
theorem objProcess_uv_color (v : List (ℚ × ℚ × ℚ × ℚ))
    (n t0 : List (ℚ × ℚ × ℚ)) (p : List Polygon) (r : List Vertex3d × List Nat)
    (hok : objProcess v n t0 p = .ok r) :
    (v.length = t0.length →
      ∀ i : Nat, (r.1[i]?).map Vertex3d.tex_coord =
        (t0[i]?).map fun x => (x.1, x.2.1)) ∧
    (v.length ≠ t0.length → ∀ w ∈ r.1, w.tex_coord = (0, 0)) ∧
    (∀ w ∈ r.1, w.color = (1, 1, 1, 1)) := by
  obtain ⟨h1, -⟩ := objProcess_ok hok
  rw [h1]
  refine ⟨?_, ?_, ?_⟩
  · intro heq i
    unfold objVerts
    rw [if_pos heq]
    by_cases hi : i < t0.length
    · have hv : i < v.length := by omega
      have hz : i < (v.zip t0).length := by rw [List.length_zip]; omega
      rw [List.getElem?_map, List.getElem?_eq_getElem hz, List.getElem_zip,
        List.getElem?_eq_getElem hi]
      rfl
    · rw [List.getElem?_map,
        List.getElem?_eq_none (by rw [List.length_zip]; omega),
        List.getElem?_eq_none (by omega)]
      rfl
  · intro hne w hw
    unfold objVerts at hw
    rw [if_neg hne] at hw
    obtain ⟨x, -, rfl⟩ := List.mem_map.mp hw
    rfl
  · intro w hw
    unfold objVerts at hw
    split at hw <;> obtain ⟨x, -, rfl⟩ := List.mem_map.mp hw <;> rfl

/-- Witness for `objProcess_uv_color` at a document with equal position
and texcoord record counts. -/
theorem objProcess_uv_color_witness :
    (([((0 : ℚ), (0 : ℚ), (0 : ℚ), (0 : ℚ)), (1, 0, 0, 0)]).length =
        ([((5 : ℚ), (6 : ℚ), (7 : ℚ)), (8, 9, 10)]).length →
      ∀ i : Nat,
        (((objVerts [(0, 0, 0, 0), (1, 0, 0, 0)] [(5, 6, 7), (8, 9, 10)],
           ([] : List Nat)).1[i]?).map Vertex3d.tex_coord) =
          (([((5 : ℚ), (6 : ℚ), (7 : ℚ)), (8, 9, 10)][i]?).map
            fun x => (x.1, x.2.1))) ∧
    (([((0 : ℚ), (0 : ℚ), (0 : ℚ), (0 : ℚ)), (1, 0, 0, 0)]).length ≠
        ([((5 : ℚ), (6 : ℚ), (7 : ℚ)), (8, 9, 10)]).length →
      ∀ w ∈ (objVerts [(0, 0, 0, 0), (1, 0, 0, 0)] [(5, 6, 7), (8, 9, 10)],
        ([] : List Nat)).1, w.tex_coord = (0, 0)) ∧
    (∀ w ∈ (objVerts [(0, 0, 0, 0), (1, 0, 0, 0)] [(5, 6, 7), (8, 9, 10)],
        ([] : List Nat)).1, w.color = (1, 1, 1, 1)) :=
  objProcess_uv_color [(0, 0, 0, 0), (1, 0, 0, 0)] []
    [(5, 6, 7), (8, 9, 10)] [] _ (by rfl)

/-! ## Lemmas about data-URI parsing -/

lemma stripPfx_some_iff {p s r : List Char} :
    stripPfx p s = some r ↔ s = p ++ r := by
  induction p generalizing s with
  | nil => simp [stripPfx, eq_comm]
  | cons c cs ih =>
    cases s with
    | nil => simp [stripPfx]
    | cons a as =>
      by_cases hac : a = c
      · subst hac
        simp [stripPfx, ih]
      · simp [stripPfx, hac, Ne.symm hac]

lemma stripPfx_none_iff {p s : List Char} :
    stripPfx p s = none ↔ ¬ p <+: s := by
  constructor
  · intro h ⟨t, ht⟩
    rw [stripPfx_some_iff.mpr ht.symm] at h
    cases h
  · intro h
    cases hs : stripPfx p s with
    | none => rfl
    | some r => exact absurd ⟨r, (stripPfx_some_iff.mp hs).symm⟩ h

lemma splitOnce_none_iff {d : Char} {s : List Char} :
    splitOnce d s = none ↔ d ∉ s := by
  induction s with
  | nil => simp [splitOnce]
  | cons c cs ih =>
    by_cases hcd : c = d
    · subst hcd
      simp [splitOnce]
    · simp [splitOnce, hcd, Option.map_eq_none, ih, Ne.symm hcd]

lemma splitOnce_append {d : Char} {pre post : List Char} (h : d ∉ pre) :
    splitOnce d (pre ++ d :: post) = some (pre, post) := by
  induction pre with
  | nil => simp [splitOnce]
  | cons c cs ih =>
    have hcd : ¬ c = d := fun hc => h (hc ▸ List.mem_cons_self _ _)
    have ihv := ih fun hm => h (List.mem_cons_of_mem _ hm)
    simp [splitOnce, hcd, ihv]

/-- C6.  Data-URI parsing and decoding: a uri without the `data:` scheme
fails to parse; a uri whose remainder has no comma fails to parse; a uri
`data:<mime>,<payload>` (no comma in the mime segment) parses into the
mime segment — with an optional `;base64` suffix stripped and recorded as
the base64 flag — and the payload; decoding returns the payload's raw
UTF-8 bytes when not marked base64 and its no-padding base64 decoding
when marked; and concretely `data:application/octet-stream;base64,QUJD`
parses with the base64 flag set and decodes to the bytes 65 66 67
(`A B C`). -/
theorem dataUri_parse_decode :
    (∀ s : List Char, ¬ ("data:".toList <+: s) → DataUri.parse s = .error ()) ∧
    (∀ rest : List Char, ',' ∉ rest →
      DataUri.parse ("data:".toList ++ rest) = .error ()) ∧
    (∀ mime payload : List Char, ',' ∉ mime →
      DataUri.parse ("data:".toList ++ mime ++ ',' :: payload) =
        match stripSfx ";base64".toList mime with
        | some m => .ok ⟨m, true, payload⟩
        | none => .ok ⟨mime, false, payload⟩) ∧
    (∀ du : DataUri, du.base64 = false → du.decode = .ok (utf8Encode du.data)) ∧
    (∀ du : DataUri, du.base64 = true →
      du.decode = match base64DecodeNoPad du.data with
        | some vec => .ok vec
        | none => .error (.CustomError "Failed to decode base64")) ∧
    DataUri.parse "data:application/octet-stream;base64,QUJD".toList =
      .ok ⟨"application/octet-stream".toList, true, "QUJD".toList⟩ ∧
    (DataUri.mk "application/octet-stream".toList true "QUJD".toList).decode =
      .ok [65, 66, 67] := by
  refine ⟨?_, ?_, ?_, ?_, ?_, ?_, ?_⟩
  · intro s h
    simp only [DataUri.parse]
    rw [stripPfx_none_iff.mpr h]
  · intro rest h
    have h2 : splitOnce ',' rest = none := splitOnce_none_iff.mpr h
    simp only [DataUri.parse]
    simp [stripPfx, h2]
  · intro mime payload h
    have h2 : splitOnce ',' (mime ++ ',' :: payload) = some (mime, payload) :=
      splitOnce_append h
    simp only [DataUri.parse]
    simp [stripPfx, h2]
  · intro du h
    simp [DataUri.decode, h]
  · intro du h
    simp only [DataUri.decode, h]
    rfl
  · rfl
  · rfl

/-- Witness for `dataUri_parse_decode` at concrete uris. -/
theorem dataUri_parse_decode_witness :
    DataUri.parse "x".toList = .error () ∧
    DataUri.parse ("data:".toList ++ "abc".toList) = .error () ∧
    DataUri.parse ("data:".toList ++ "m".toList ++ ',' :: "p".toList) =
      (match stripSfx ";base64".toList "m".toList with
       | some m => .ok ⟨m, true, "p".toList⟩
       | none => .ok ⟨"m".toList, false, "p".toList⟩) ∧
    (DataUri.mk "m".toList false "p".toList).decode =
      .ok (utf8Encode "p".toList) ∧
    (DataUri.mk "m".toList true "p".toList).decode =
      (match base64DecodeNoPad "p".toList with
       | some vec => .ok vec
       | none => .error (.CustomError "Failed to decode base64")) :=
  ⟨dataUri_parse_decode.1 "x".toList (by decide),
   dataUri_parse_decode.2.1 "abc".toList (by decide),
   dataUri_parse_decode.2.2.1 "m".toList "p".toList (by decide),
   dataUri_parse_decode.2.2.2.1 ⟨"m".toList, false, "p".toList⟩ rfl,
   dataUri_parse_decode.2.2.2.2.1 ⟨"m".toList, true, "p".toList⟩ rfl⟩

/-! ## Lemmas about the scene-graph importer -/

lemma assignTexCoords_color {tcs : List (ℚ × ℚ)} {vs l : List Vertex3d}
    (h : assignTexCoords tcs vs = some l) :
    ∀ w ∈ l, ∃ v ∈ vs, w.color = v.color := by
  induction tcs generalizing vs l with
  | nil =>
    simp only [assignTexCoords, Option.some.injEq] at h
    subst h
    exact fun w hw => ⟨w, hw, rfl⟩
  | cons t ts ih =>
    cases vs with
    | nil => simp [assignTexCoords] at h
    | cons v vrest =>
      simp only [assignTexCoords] at h
      cases hc : assignTexCoords ts vrest with
      | none => rw [hc] at h; simp at h
      | some rest =>
        rw [hc] at h
        simp only [Option.map_some', Option.some.injEq] at h
        subst h
        intro w hw
        rcases List.mem_cons.mp hw with rfl | hmem
        · exact ⟨v, List.mem_cons_self _ _, rfl⟩
        · obtain ⟨v2, hv2, he⟩ := ih hc w hmem
          exact ⟨v2, List.mem_cons_of_mem _ hv2, he⟩

/-- C9 (amended).  The positional texture-coordinate assignment of
`Model::from_gltf` stays in bounds (and therefore succeeds) exactly when
the texture-coordinate count does not exceed the vertex count read from
the position accessor, and then it preserves the vertex count.  (The
claim's "for all combinations ... never fails" is false: when the
texture coordinates outnumber the vertices the loop indexes the vertex
list out of bounds, a panic — see the counterexample.) -/
theorem assignTexCoords_inbounds (tcs : List (ℚ × ℚ)) (vs : List Vertex3d) :
    ((assignTexCoords tcs vs).isSome ↔ tcs.length ≤ vs.length) ∧
    (∀ l, assignTexCoords tcs vs = some l → l.length = vs.length) := by
  induction tcs generalizing vs with
  | nil =>
    refine ⟨by simp [assignTexCoords], ?_⟩
    intro l h
    simp only [assignTexCoords, Option.some.injEq] at h
    rw [h]
  | cons t ts ih =>
    cases vs with
    | nil =>
      refine ⟨by simp [assignTexCoords], ?_⟩
      intro l h
      simp [assignTexCoords] at h
    | cons v vrest =>
      refine ⟨?_, ?_⟩
      · simp only [assignTexCoords, Option.isSome_map', List.length_cons,
          Nat.succ_le_succ_iff]
        exact (ih vrest).1
      · intro l h
        simp only [assignTexCoords] at h
        cases hc : assignTexCoords ts vrest with
        | none => rw [hc] at h; simp at h
        | some rest =>
          rw [hc] at h
          simp only [Option.map_some', Option.some.injEq] at h
          subst h
          simp [List.length_cons, (ih vrest).2 rest hc]

/-- C9 counterexample: one texture coordinate and zero vertices — the
first write `vertices[0]` is out of bounds, so the assignment panics, and
a primitive shaped like that makes the primitive loop panic. -/
theorem assignTexCoords_cex :
    assignTexCoords [(0, 0)] [] = none ∧
    processPrimitive (fun _ => none)
      { positions := none, texCoords := some [(0, 0)], indices := none,
        texture := none } = .panicked :=
  ⟨rfl, rfl⟩

/-- Witness for `assignTexCoords_inbounds`: one texture coordinate onto
one vertex. -/
theorem assignTexCoords_inbounds_witness :
    ([({ pos := ((0 : ℚ), (0 : ℚ), (0 : ℚ)), tex_coord := ((1 : ℚ), (2 : ℚ)),
         color := ((1 : ℚ), (1 : ℚ), (1 : ℚ), (0 : ℚ)) } : Vertex3d)]).length =
      (primitiveVertices [(0, 0, 0)]).length :=
  (assignTexCoords_inbounds [(1, 2)] (primitiveVertices [(0, 0, 0)])).2 _ rfl

/-- C10.  `Vertex3d::new` with no color produces the color `(1,1,1,0)` —
white with zero alpha, not opaque white — and every vertex built by the
scene-graph importer's position/texture-coordinate reads has that color,
hence alpha 0. -/
theorem vertex3d_new_zero_alpha :
    (∀ (p : V3) (uv : ℚ × ℚ), (Vertex3d.new p uv none).color = (1, 1, 1, 0)) ∧
    (∀ (ps : List V3) (tcs : List (ℚ × ℚ)) (l : List Vertex3d),
      assignTexCoords tcs (primitiveVertices ps) = some l →
      ∀ w ∈ l, w.color = (1, 1, 1, 0)) := by
  refine ⟨fun p uv => rfl, ?_⟩
  intro ps tcs l h w hw
  obtain ⟨v, hv, he⟩ := assignTexCoords_color h w hw
  obtain ⟨q, -, rfl⟩ := List.mem_map.mp hv
  exact he

/-- Witness for `vertex3d_new_zero_alpha` at a one-vertex primitive. -/
theorem vertex3d_new_zero_alpha_witness :
    ({ pos := ((0 : ℚ), (0 : ℚ), (0 : ℚ)), tex_coord := ((1 : ℚ), (2 : ℚ)),
       color := ((1 : ℚ), (1 : ℚ), (1 : ℚ), (0 : ℚ)) } : Vertex3d).color =
      (1, 1, 1, 0) :=
  vertex3d_new_zero_alpha.2 [(0, 0, 0)] [(1, 2)] _ rfl _
    (List.mem_singleton.mpr rfl)

/-- C5 (amended).  A failure of the image decoder on a primitive's
base-color texture is always recovered locally with a default image: a
buffer-view texture never produces an error, and the whole primitive loop
never returns an error — whatever the image decoder does, including
always failing — provided every uri-sourced texture passes data-URI
parsing and payload decoding.  (That proviso is forced: a texture uri
that fails data-URI parsing or base64 decoding aborts the whole call,
see the counterexample.) -/
theorem gltf_texture_decode_recovery :
    (∀ (decodeImg : List Nat → Option (List Nat)) (bytes : List Nat) (m : String),
      resolveTexture decodeImg (some (.view bytes m)) =
        .ok (Image.fromPixels ((decodeImg bytes).getD []))) ∧
    (∀ (decodeImg : List Nat → Option (List Nat)) (prims : List GltfPrimitive),
      (∀ p ∈ prims, ∀ u m, p.texture = some (.uri u m) →
        ∃ du bytes, DataUri.parse u = .ok du ∧ du.decode = .ok bytes) →
      (fromGltfPrimitives decodeImg prims).isError = false) := by
  refine ⟨fun decodeImg bytes m => rfl, ?_⟩
  intro decodeImg prims
  induction prims with
  | nil => intro hp; rfl
  | cons p rest ih =>
    intro hp
    have hrec := ih fun q hq => hp q (List.mem_cons_of_mem _ hq)
    have hres : ∃ img, resolveTexture decodeImg p.texture = .ok img := by
      cases htex : p.texture with
      | none => exact ⟨_, rfl⟩
      | some src =>
        cases src with
        | view bytes m => exact ⟨_, rfl⟩
        | uri u m =>
          obtain ⟨du, bytes, hdu, hdec⟩ := hp p (List.mem_cons_self _ _) u m htex
          refine ⟨Image.fromPixels ((decodeImg bytes).getD []), ?_⟩
          simp [resolveTexture, hdu, hdec]
    obtain ⟨img, himg⟩ := hres
    simp only [fromGltfPrimitives, processPrimitive, himg]
    cases hat : (match p.texCoords with
      | none => some (match p.positions with
          | none => []
          | some ps => primitiveVertices ps)
      | some tcs => assignTexCoords tcs (match p.positions with
          | none => []
          | some ps => primitiveVertices ps)) with
    | none => rfl
    | some vs =>
      cases hr : fromGltfPrimitives decodeImg rest with
      | error e => rw [hr] at hrec; simp [RunResult.isError] at hrec
      | ok ms => rfl
      | panicked => rfl

/-- C5 counterexample to the claim as stated: a primitive whose texture
uri is marked base64 but carries an invalid base64 payload makes the
whole primitive loop return an error — the texture failure is not
recovered locally. -/
theorem gltf_texture_abort_cex :
    fromGltfPrimitives (fun _ => none)
      [{ positions := some [], texCoords := none, indices := none,
         texture := some (.uri "data:image/png;base64,!".toList none) }] =
      .error (.CustomError "Failed to decode base64") := rfl

/-- Witness for `gltf_texture_decode_recovery`: an always-failing image
decoder on a view-sourced texture does not make the loop error. -/
theorem gltf_texture_decode_recovery_witness :
    (fromGltfPrimitives (fun _ => none)
      [{ positions := some [(0, 0, 0)], texCoords := none, indices := none,
         texture := some (.view [1, 2, 3] "image/png") }]).isError = false :=
  gltf_texture_decode_recovery.2 _ _
    (by
      intro p hp u m htex
      simp only [List.mem_singleton] at hp
      subst hp
      simp at htex)

/-- C8.  Serializing any configuration value with `Conf::to_toml_file`
and parsing the produced document back with `Conf::from_toml_file` yields
the original structure, for every combination of field values (floats
modelled as exact rationals). -/
theorem conf_round_trip (c : Conf) :
    Conf.from_toml_file (Conf.to_toml_file c) = .ok c := by
  obtain ⟨⟨w, h, mx, ft, bl, minw, minh, maxw, maxh, rs, vis, rsf⟩,
    ⟨ti, sa, vs, ic, sr⟩, bk⟩ := c
  cases ft <;> cases sa <;> cases bk <;> rfl
